import Mathlib

/-!
Verification development for the `tui-command-bar-widget` repository.

The repository implements a single-line command-bar widget (`CommandBar`),
a popup wrapper (`Popup`), and a character-to-callback registry
(`KeyDatabase` / `KeyHook`).  Below is a shallow embedding of that code:

* `InputMode`, `EventHandlerResult` embed the enums of
  `src/widgets/command_bar.rs`.
* `CBState` embeds the mutable data fields of `CommandBar` (the
  `key_database` field is carried separately as a `KeyDB` value, because a
  callback type mentioning the whole widget would be a negative occurrence;
  callbacks are modelled as transformers of the data fields, which is all
  the repository's own callbacks ever touch).
* The mpsc sender is modelled by `Channel`: a connected flag plus the list
  of messages successfully sent.  `send` on a disconnected channel fails
  with `SendError(msg)`, embedded as `Except.error msg`.
* `event::read` is an out-of-line input source; `handle_event` therefore
  takes the read result `Except String Event` as an argument.
* Display-width measurement (the `unicode-width` crate) is an external
  collaborator, so every operation is parametrised by a per-character
  width function `cw : Char → Nat`; `strWidth cw` is the width of a
  buffer, matching `UnicodeWidthStr::width` as the sum of the character
  widths.
-/

namespace CBar

/-- Embeds `InputMode` of `command_bar.rs`. -/
inductive InputMode where
  | Normal
  | Editing
  deriving DecidableEq

/-- Embeds `crossterm::event::KeyCode` restricted to the variants the code
matches on; `other` stands for every remaining variant, all of which fall
into the wildcard arms of `handle_event`. -/
inductive KeyCode where
  | char (c : Char)
  | enter
  | backspace
  | esc
  | other
  deriving DecidableEq

/-- Embeds `crossterm::event::Event` with the three variants the code
matches (`Key`, `Resize`, `Mouse`).  `handle_event` only inspects
`key.code`, so modifiers and mouse payloads are omitted. -/
inductive Event where
  | key (code : KeyCode)
  | resize (w h : Nat)
  | mouse
  deriving DecidableEq

/-- Embeds `EventHandlerResult` of `command_bar.rs`. -/
inductive EventHandlerResult where
  | Ok
  | Err
  | Unhandled (e : Event)
  deriving DecidableEq

/-- Model of the mpsc sender: whether the receiving end is still
connected, and the messages delivered so far. -/
structure Channel where
  connected : Bool
  sent : List (List Char)
  deriving DecidableEq

/-- Embeds the data fields of `CommandBar` (`command_key`, `input`,
`input_mode`, `messages`, `tx_channel`, `width`).  The `input` buffer and
the history entries are lists of characters.  `width : Nat` embeds the
`u16` field. -/
structure CBState where
  command_key : Option Char
  input : List Char
  input_mode : InputMode
  messages : List (List Char)
  tx_channel : Option Channel
  width : Nat
  deriving DecidableEq

/-- A registered callback: embeds `&dyn Fn(&mut CommandBar, char)`,
acting on the data fields of the widget. -/
def Callback : Type := CBState → Char → CBState

/-- Embeds `KeyDatabase.keys : HashMap<char, callback>` as an association
list with at most one binding per key. -/
def KeyDB : Type := List (Char × Callback)

/-- `HashMap::get` on the key database. -/
def lookupKey : KeyDB → Char → Option Callback
  | [], _ => none
  | (k, f) :: rest, c => if k = c then some f else lookupKey rest c

/-- `HashMap::remove` on the key database. -/
def eraseKey : KeyDB → Char → KeyDB
  | [], _ => []
  | (k, f) :: rest, c =>
      if k = c then eraseKey rest c else (k, f) :: eraseKey rest c

/-- `HashMap::insert` on the key database: replaces any existing binding
for the key. -/
def insertKey (db : KeyDB) (k : Char) (f : Callback) : KeyDB :=
  (k, f) :: eraseKey db k

/-- Embeds `CommandBar::default` (`Default` impl in `command_bar.rs`). -/
def cbDefault : CBState :=
  { command_key := none
  , input := []
  , input_mode := InputMode.Normal
  , messages := []
  , tx_channel := none
  , width := 0 }

/-- Embeds `CommandBar::register_key` (the `KeyHook` impl): sets
`command_key` to the key and inserts the callback. -/
def register_key (k : Char) (f : Callback) (s : CBState) (db : KeyDB) :
    CBState × KeyDB :=
  ({ s with command_key := some k }, insertKey db k f)

/-- Embeds `CommandBar::unregister_key`: removes the binding and clears
`command_key` when it matches the removed key. -/
def unregister_key (k : Char) (s : CBState) (db : KeyDB) :
    CBState × KeyDB :=
  let db1 := eraseKey db k
  match s.command_key with
  | some ck => if ck = k then ({ s with command_key := none }, db1) else (s, db1)
  | none => (s, db1)

/-- `UnicodeWidthStr::width` of the buffer: sum of the per-character
widths given by the width function `cw`. -/
def strWidth (cw : Char → Nat) (l : List Char) : Nat :=
  (l.map cw).sum

/-- Embeds `CommandBar::submit`: drain `input` into a message, push it to
`messages`, then try to send it.  Sending on a disconnected channel
returns `SendError(msg)`, embedded as `Except.error msg`; with no channel
the result is `Ok`. -/
def submit (s : CBState) : CBState × Except (List Char) Unit :=
  let msg := s.input
  let s1 := { s with input := [], messages := s.messages ++ [msg] }
  match s.tx_channel with
  | some ch =>
      if ch.connected then
        ({ s1 with tx_channel := some { ch with sent := ch.sent ++ [msg] } },
         Except.ok ())
      else (s1, Except.error msg)
  | none => (s1, Except.ok ())

/-- Embeds `CommandBar::normal`. -/
def normal (s : CBState) : CBState :=
  { s with input_mode := InputMode.Normal }

/-- Embeds `CommandBar::command_key_handler`: in Normal mode enter
Editing mode (the key argument is only logged by the code). -/
def command_key_handler (s : CBState) (_k : Char) : CBState :=
  match s.input_mode with
  | InputMode.Normal => { s with input_mode := InputMode.Editing }
  | InputMode.Editing => s

/-- The callback step of the Normal-mode `Char` arm of `handle_event`:
`if contains_key { if let Some(f) = get { f(self, k) } }`. -/
def applyCallback (db : KeyDB) (s : CBState) (k : Char) : CBState :=
  match lookupKey db k with
  | some f => f s k
  | none => s

/-- Embeds `CommandBar::handle_event`.  `res` is the result of the
`event::read()` call; on a read error the function returns `Err` without
touching the state.  In the Normal `Char` arm the registered callback (if
any) runs first, then `handled` is decided from the post-callback
`command_key`; the Editing transition in that arm is commented out in the
source.  In the Editing `Char` arm a character is appended only when the
current buffer width is strictly below `width`. -/
def handle_event (cw : Char → Nat) (res : Except String Event)
    (s : CBState) (db : KeyDB) : CBState × EventHandlerResult :=
  match res with
  | Except.error _ => (s, EventHandlerResult.Err)
  | Except.ok ev =>
    match ev with
    | Event.key code =>
      match s.input_mode with
      | InputMode.Normal =>
        match code with
        | KeyCode.char k =>
            let s1 := applyCallback db s k
            match s1.command_key with
            | none => (s1, EventHandlerResult.Unhandled ev)
            | some c =>
                if c = k then (s1, EventHandlerResult.Ok)
                else (s1, EventHandlerResult.Unhandled ev)
        | _ => (s, EventHandlerResult.Unhandled ev)
      | InputMode.Editing =>
        match code with
        | KeyCode.enter =>
            let s1 := (submit s).1
            (normal s1, EventHandlerResult.Ok)
        | KeyCode.char c =>
            if strWidth cw s.input < s.width then
              ({ s with input := s.input ++ [c] }, EventHandlerResult.Ok)
            else (s, EventHandlerResult.Ok)
        | KeyCode.backspace =>
            ({ s with input := s.input.dropLast }, EventHandlerResult.Ok)
        | KeyCode.esc => (normal s, EventHandlerResult.Ok)
        | _ => (s, EventHandlerResult.Unhandled ev)
    | Event.resize _ _ => (s, EventHandlerResult.Unhandled ev)
    | Event.mouse => (s, EventHandlerResult.Unhandled ev)

/-- Embeds the data fields of `Popup` (`popup.rs`): the visibility flag
and the wrapped command bar. -/
structure PopupState where
  show_popup : Bool
  bar : CBState
  deriving DecidableEq

/-- Embeds `Popup::handle_event`: delegate to the command bar, and on an
`Ok` result recompute `show_popup` from the bar's mode; otherwise keep
the previous flag. -/
def popupHandleEvent (cw : Char → Nat) (res : Except String Event)
    (p : PopupState) (db : KeyDB) : PopupState × EventHandlerResult :=
  let out := handle_event cw res p.bar db
  match out.2 with
  | EventHandlerResult.Ok =>
      let sp :=
        match out.1.input_mode with
        | InputMode.Normal => false
        | InputMode.Editing => true
      ({ show_popup := sp, bar := out.1 }, out.2)
  | _ => ({ p with bar := out.1 }, out.2)

/-- Embeds the width update of `impl Widget for &mut CommandBar::render`:
`self.width = area.width - 2` on `u16`.  When `area.width < 2` the
subtraction underflows and the rendering call is not defined (it panics
under the overflow checks the crate is tested with); this is modelled by
`none`.  The actual drawing delegates to the host toolkit's `Paragraph`
and is out of scope. -/
def cbRender (s : CBState) (areaWidth : Nat) : Option CBState :=
  if 2 ≤ areaWidth then some { s with width := areaWidth - 2 } else none

/-- Iterated dispatch of `Char` key events through `handle_event`. -/
def processChars (cw : Char → Nat) (db : KeyDB) :
    CBState → List Char → CBState
  | s, [] => s
  | s, c :: cs =>
      processChars cw db
        (handle_event cw (Except.ok (Event.key (KeyCode.char c))) s db).1 cs

/-- The characters accepted by the Editing-mode `Char` arm: starting from
current buffer width `cur`, a character is kept exactly when `cur` is
strictly below the limit `w`, and the running width grows by the width of
each kept character. -/
def acceptedChars (cw : Char → Nat) (w : Nat) : Nat → List Char → List Char
  | _, [] => []
  | cur, c :: cs =>
      if cur < w then c :: acceptedChars cw w (cur + cw c) cs
      else acceptedChars cw w cur cs

/-- A width function on which every character is a single cell (the
all-ASCII situation). -/
def cw1 : Char → Nat := fun _ => 1

/-- Modelled from the spec: glyph/width measurement is an out-of-scope
collaborator (the `unicode-width` crate).  This instance makes East Asian
characters two cells wide and everything else one cell wide, which agrees
with the crate on the characters used below (ASCII is width 1, U+597D is
width 2). -/
def cwWide : Char → Nat := fun c => if 0x2E80 ≤ c.toNat then 2 else 1

/-- A callback that does nothing; hosts may register any callback, so
this is a legal argument to `register_key`. -/
def noop : Callback := fun s _ => s

/-- Removing a key from the database removes every binding for it. -/
lemma lookupKey_erase (db : KeyDB) (k : Char) :
    lookupKey (eraseKey db k) k = none := by
  induction db with
  | nil => rfl
  | cons p rest ih =>
      obtain ⟨k0, f0⟩ := p
      by_cases hk : k0 = k
      · simpa [eraseKey, hk] using ih
      · simp [eraseKey, lookupKey, hk, ih]

/-- Removing one key does not disturb the bindings of other keys. -/
lemma lookupKey_erase_ne (db : KeyDB) (k k' : Char) (h : k' ≠ k) :
    lookupKey (eraseKey db k) k' = lookupKey db k' := by
  induction db with
  | nil => rfl
  | cons p rest ih =>
      obtain ⟨k0, f0⟩ := p
      by_cases hk : k0 = k
      · subst hk
        simp [eraseKey, lookupKey, Ne.symm h, ih]
      · by_cases hk' : k0 = k'
        · subst hk'
          simp [eraseKey, lookupKey, hk, h]
        · simp [eraseKey, lookupKey, hk, hk', ih]

/-- `insert` replaces the binding for the inserted key and keeps every
other binding. -/
lemma lookupKey_insert (db : KeyDB) (k k' : Char) (f : Callback) :
    lookupKey (insertKey db k f) k' =
      if k' = k then some f else lookupKey db k' := by
  by_cases hk : k' = k
  · simp [insertKey, lookupKey, hk]
  · have : k ≠ k' := fun hc => hk hc.symm
    simp [insertKey, lookupKey, this, hk, lookupKey_erase_ne db k k' hk]

/-- Buffer width is additive on appending a character. -/
lemma strWidth_append (cw : Char → Nat) (l : List Char) (c : Char) :
    strWidth cw (l ++ [c]) = strWidth cw l + cw c := by
  simp [strWidth]

/-- The Editing-mode `Char` arm of `handle_event` in closed form. -/
lemma handle_event_editing_char (cw : Char → Nat) (s : CBState)
    (db : KeyDB) (c : Char) (h : s.input_mode = InputMode.Editing) :
    handle_event cw (Except.ok (Event.key (KeyCode.char c))) s db =
      (if strWidth cw s.input < s.width then
        { s with input := s.input ++ [c] } else s, EventHandlerResult.Ok) := by
  obtain ⟨ck, inp, mode, msgs, tx, w⟩ := s
  cases mode with
  | Normal => cases h
  | Editing =>
      by_cases hw : strWidth cw inp < w <;> simp [handle_event, hw]

/-- The Normal-mode `Char` arm of `handle_event` in closed form: the
registered callback (if any) runs first, and the result is `Ok` exactly
when the post-callback `command_key` equals the pressed character. -/
lemma handle_event_normal_char (cw : Char → Nat) (s : CBState) (db : KeyDB)
    (k : Char) (h : s.input_mode = InputMode.Normal) :
    handle_event cw (Except.ok (Event.key (KeyCode.char k))) s db =
      (applyCallback db s k,
        if (applyCallback db s k).command_key = some k then EventHandlerResult.Ok
        else EventHandlerResult.Unhandled (Event.key (KeyCode.char k))) := by
  obtain ⟨ck, inp, mode, msgs, tx, w⟩ := s
  cases mode with
  | Editing => cases h
  | Normal =>
      cases hck : (applyCallback db ⟨ck, inp, InputMode.Normal, msgs, tx, w⟩ k).command_key with
      | none => simp [handle_event, hck]
      | some c =>
          by_cases hc : c = k
          · simp [handle_event, hck, hc]
          · simp [handle_event, hck, hc]

/-- C1 (amended): in Normal mode, when the post-callback `command_key`
equals the character — in particular when no callback changed anything
and the character equals the registered command key — the outcome is
`Ok` (Handled), but the dispatch itself performs no state change beyond
the callback: the built-in check never enters Editing mode on its own
(that assignment is commented out in the source). -/
theorem c1_command_key_handled_no_mode_change (cw : Char → Nat) (s : CBState)
    (db : KeyDB) (k : Char) (h1 : s.input_mode = InputMode.Normal)
    (h2 : (applyCallback db s k).command_key = some k) :
    handle_event cw (Except.ok (Event.key (KeyCode.char k))) s db =
      (applyCallback db s k, EventHandlerResult.Ok) := by
  rw [handle_event_normal_char cw s db k h1, if_pos h2]

/-- Witness for C1 (amended) on a command bar whose command key is `:`
with a do-nothing callback registered at `:`. -/
theorem c1_witness :
    ({ cbDefault with command_key := some ':' } : CBState).input_mode = InputMode.Normal ∧
      (applyCallback [(':', noop)] { cbDefault with command_key := some ':' } ':').command_key
        = some ':' ∧
      handle_event cw1 (Except.ok (Event.key (KeyCode.char ':')))
          { cbDefault with command_key := some ':' } [(':', noop)] =
        (applyCallback [(':', noop)] { cbDefault with command_key := some ':' } ':',
         EventHandlerResult.Ok) :=
  ⟨rfl, rfl,
   c1_command_key_handled_no_mode_change cw1
     { cbDefault with command_key := some ':' } [(':', noop)] ':' rfl rfl⟩

/-- Counterexample to C1 as stated: register `:` with a do-nothing
callback (so no callback sets the mode), dispatch the character `:` in
Normal mode; the outcome is `Ok` but the next state is still `Normal`,
not `Editing` — the built-in fallback does not enter edit mode. -/
theorem c1_counterexample :
    (handle_event cw1 (Except.ok (Event.key (KeyCode.char ':')))
        (register_key ':' noop cbDefault []).1 (register_key ':' noop cbDefault []).2).2
      = EventHandlerResult.Ok ∧
      (handle_event cw1 (Except.ok (Event.key (KeyCode.char ':')))
          (register_key ':' noop cbDefault []).1 (register_key ':' noop cbDefault []).2).1.input_mode
        = InputMode.Normal ∧
      InputMode.Normal ≠ InputMode.Editing :=
  ⟨rfl, rfl, by decide⟩

/-- C3: Enter in Editing mode with non-empty input yields `Ok`, empties
the buffer, appends the old buffer as the newest history entry, and
returns to Normal mode — for every channel configuration. -/
theorem c3_enter_submits (cw : Char → Nat) (s : CBState) (db : KeyDB)
    (h : s.input_mode = InputMode.Editing) (hne : s.input ≠ []) :
    (handle_event cw (Except.ok (Event.key KeyCode.enter)) s db).2 = EventHandlerResult.Ok ∧
      (handle_event cw (Except.ok (Event.key KeyCode.enter)) s db).1.input = [] ∧
      (handle_event cw (Except.ok (Event.key KeyCode.enter)) s db).1.messages
        = s.messages ++ [s.input] ∧
      (handle_event cw (Except.ok (Event.key KeyCode.enter)) s db).1.input_mode
        = InputMode.Normal := by
  obtain ⟨ck, inp, mode, msgs, tx, w⟩ := s
  cases mode with
  | Normal => cases h
  | Editing =>
      cases tx with
      | none => simp [handle_event, submit, normal]
      | some ch =>
          by_cases hc : ch.connected <;> simp [handle_event, submit, normal, hc]

/-- Witness for C3 on an Editing-mode bar holding the single character
`a` and no channel. -/
theorem c3_witness :
    ({ cbDefault with input := ['a'], input_mode := InputMode.Editing } : CBState).input_mode
      = InputMode.Editing ∧
      ({ cbDefault with input := ['a'], input_mode := InputMode.Editing } : CBState).input ≠ [] ∧
      ((handle_event cw1 (Except.ok (Event.key KeyCode.enter))
          { cbDefault with input := ['a'], input_mode := InputMode.Editing } []).2
        = EventHandlerResult.Ok ∧
      (handle_event cw1 (Except.ok (Event.key KeyCode.enter))
          { cbDefault with input := ['a'], input_mode := InputMode.Editing } []).1.input = [] ∧
      (handle_event cw1 (Except.ok (Event.key KeyCode.enter))
          { cbDefault with input := ['a'], input_mode := InputMode.Editing } []).1.messages
        = ({ cbDefault with input := ['a'], input_mode := InputMode.Editing } : CBState).messages
            ++ [({ cbDefault with input := ['a'], input_mode := InputMode.Editing } : CBState).input] ∧
      (handle_event cw1 (Except.ok (Event.key KeyCode.enter))
          { cbDefault with input := ['a'], input_mode := InputMode.Editing } []).1.input_mode
        = InputMode.Normal) :=
  ⟨rfl, by decide,
   c3_enter_submits cw1 { cbDefault with input := ['a'], input_mode := InputMode.Editing } []
     rfl (by decide)⟩

/-- C5: with a disconnected channel attached, `submit` reports the send
error, yet the Enter dispatch still returns `Ok`, moves to Normal mode,
empties the buffer and records the message in history; with no channel
attached `submit` silently succeeds. -/
theorem c5_send_failure_local (cw : Char → Nat) (s : CBState) (db : KeyDB)
    (log : List (List Char)) (h : s.input_mode = InputMode.Editing) :
    (submit { s with tx_channel := some { connected := false, sent := log } }).2
      = Except.error s.input ∧
      (handle_event cw (Except.ok (Event.key KeyCode.enter))
          { s with tx_channel := some { connected := false, sent := log } } db).2
        = EventHandlerResult.Ok ∧
      (handle_event cw (Except.ok (Event.key KeyCode.enter))
          { s with tx_channel := some { connected := false, sent := log } } db).1.input_mode
        = InputMode.Normal ∧
      (handle_event cw (Except.ok (Event.key KeyCode.enter))
          { s with tx_channel := some { connected := false, sent := log } } db).1.messages
        = s.messages ++ [s.input] ∧
      (handle_event cw (Except.ok (Event.key KeyCode.enter))
          { s with tx_channel := some { connected := false, sent := log } } db).1.input = [] ∧
      (submit { s with tx_channel := none }).2 = Except.ok () := by
  obtain ⟨ck, inp, mode, msgs, tx, w⟩ := s
  cases mode with
  | Normal => cases h
  | Editing => simp [handle_event, submit, normal]

/-- Witness for C5 on an Editing-mode bar holding `a` with a
disconnected channel. -/
theorem c5_witness :
    ({ cbDefault with input := ['a'], input_mode := InputMode.Editing } : CBState).input_mode
      = InputMode.Editing ∧
      (submit { cbDefault with
                  input := ['a'],
                  input_mode := InputMode.Editing,
                  tx_channel := some { connected := false, sent := [] } }).2
        = Except.error ['a'] ∧
      (handle_event cw1 (Except.ok (Event.key KeyCode.enter))
          { cbDefault with
              input := ['a'],
              input_mode := InputMode.Editing,
              tx_channel := some { connected := false, sent := [] } } []).2
        = EventHandlerResult.Ok ∧
      (handle_event cw1 (Except.ok (Event.key KeyCode.enter))
          { cbDefault with
              input := ['a'],
              input_mode := InputMode.Editing,
              tx_channel := some { connected := false, sent := [] } } []).1.input_mode
        = InputMode.Normal :=
  ⟨rfl,
   (c5_send_failure_local cw1
      { cbDefault with input := ['a'], input_mode := InputMode.Editing } [] [] rfl).1,
   (c5_send_failure_local cw1
      { cbDefault with input := ['a'], input_mode := InputMode.Editing } [] [] rfl).2.1,
   (c5_send_failure_local cw1
      { cbDefault with input := ['a'], input_mode := InputMode.Editing } [] [] rfl).2.2.1⟩

/-- C7: unregistering the current command key removes its callback and
clears `command_key`; dispatching that character afterwards in Normal
mode leaves the state unchanged and returns `Unhandled`. -/
theorem c7_unregister_command_key (cw : Char → Nat) (s : CBState) (db : KeyDB)
    (k : Char) (h1 : s.command_key = some k) (h2 : s.input_mode = InputMode.Normal) :
    lookupKey (unregister_key k s db).2 k = none ∧
      (unregister_key k s db).1.command_key = none ∧
      handle_event cw (Except.ok (Event.key (KeyCode.char k)))
          (unregister_key k s db).1 (unregister_key k s db).2
        = ((unregister_key k s db).1,
           EventHandlerResult.Unhandled (Event.key (KeyCode.char k))) := by
  have hdb : (unregister_key k s db).2 = eraseKey db k := by
    simp [unregister_key, h1]
  have hs : (unregister_key k s db).1 = { s with command_key := none } := by
    simp [unregister_key, h1]
  refine ⟨?_, ?_, ?_⟩
  · rw [hdb]
    exact lookupKey_erase db k
  · rw [hs]
  · rw [hdb, hs]
    have hmode : ({ s with command_key := none } : CBState).input_mode = InputMode.Normal := h2
    have hcb : applyCallback (eraseKey db k) { s with command_key := none } k
        = { s with command_key := none } := by
      simp [applyCallback, lookupKey_erase]
    rw [handle_event_normal_char cw _ _ k hmode, hcb]
    simp

/-- Witness for C7: unregister `:` from a bar whose command key is `:`
and whose database binds `:` to the standard handler, then dispatch `:`. -/
theorem c7_witness :
    ((register_key ':' command_key_handler cbDefault []).1.command_key = some ':' ∧
      (register_key ':' command_key_handler cbDefault []).1.input_mode = InputMode.Normal) ∧
      (lookupKey (unregister_key ':' (register_key ':' command_key_handler cbDefault []).1
          (register_key ':' command_key_handler cbDefault []).2).2 ':' = none ∧
      (unregister_key ':' (register_key ':' command_key_handler cbDefault []).1
          (register_key ':' command_key_handler cbDefault []).2).1.command_key = none ∧
      handle_event cw1 (Except.ok (Event.key (KeyCode.char ':')))
          (unregister_key ':' (register_key ':' command_key_handler cbDefault []).1
            (register_key ':' command_key_handler cbDefault []).2).1
          (unregister_key ':' (register_key ':' command_key_handler cbDefault []).1
            (register_key ':' command_key_handler cbDefault []).2).2
        = ((unregister_key ':' (register_key ':' command_key_handler cbDefault []).1
            (register_key ':' command_key_handler cbDefault []).2).1,
           EventHandlerResult.Unhandled (Event.key (KeyCode.char ':')))) :=
  ⟨⟨rfl, rfl⟩,
   c7_unregister_command_key cw1 (register_key ':' command_key_handler cbDefault []).1
     (register_key ':' command_key_handler cbDefault []).2 ':' rfl rfl⟩

/-- C6: on a read failure `handle_event` returns `Err` — a result
distinct from every `Unhandled` — and the whole widget state (mode,
buffer, history, command key, channel, width; the registry is not even
reachable before the read) is exactly as before the call. -/
theorem c6_read_error_state_unchanged (cw : Char → Nat) (msg : String)
    (s : CBState) (db : KeyDB) :
    handle_event cw (Except.error msg) s db = (s, EventHandlerResult.Err) ∧
      ∀ e : Event, (EventHandlerResult.Err ≠ EventHandlerResult.Unhandled e) := by
  refine ⟨rfl, ?_⟩
  intro e h
  cases h

/-- C10: the width update of `render` is defined exactly when the granted
area is at least 2 columns wide, in which case the stored width becomes
`area.width - 2`; for areas of width 0 or 1 the `u16` subtraction
underflows and rendering is undefined. -/
theorem c10_render_width (s : CBState) (areaWidth : Nat) :
    (2 ≤ areaWidth → cbRender s areaWidth = some { s with width := areaWidth - 2 }) ∧
      (areaWidth < 2 → cbRender s areaWidth = none) := by
  constructor
  · intro h
    simp [cbRender, h]
  · intro h
    rw [cbRender, if_neg (by omega)]

/-- Witness for C10 at concrete areas of width 10 and width 1. -/
theorem c10_render_width_witness :
    (2 ≤ 10 ∧ cbRender cbDefault 10 = some { cbDefault with width := 8 }) ∧
      (1 < 2 ∧ cbRender cbDefault 1 = none) :=
  ⟨⟨by decide, (c10_render_width cbDefault 10).1 (by decide)⟩,
   ⟨by decide, (c10_render_width cbDefault 1).2 (by decide)⟩⟩

/-- C4 (amended): in Normal mode a Character event whose character is
bound in the callback table invokes the registered callback with the
owner and the character, and the outcome is `Ok` exactly when the
post-callback `command_key` equals the character; for any other
registered key the outcome is `Unhandled`. -/
theorem c4_registered_callback_invoked (cw : Char → Nat) (s : CBState)
    (db : KeyDB) (k : Char) (f : Callback) (h1 : s.input_mode = InputMode.Normal)
    (h2 : lookupKey db k = some f) :
    handle_event cw (Except.ok (Event.key (KeyCode.char k))) s db =
      (f s k,
        if (f s k).command_key = some k then EventHandlerResult.Ok
        else EventHandlerResult.Unhandled (Event.key (KeyCode.char k))) := by
  have hcb : applyCallback db s k = f s k := by simp [applyCallback, h2]
  rw [handle_event_normal_char cw s db k h1, hcb]

/-- Witness for C4 (amended): the standard command-key handler bound at
`:` is invoked when `:` is dispatched in Normal mode. -/
theorem c4_witness :
    ((register_key ':' command_key_handler cbDefault []).1.input_mode
        = InputMode.Normal ∧
      lookupKey (register_key ':' command_key_handler cbDefault []).2 ':'
        = some command_key_handler) ∧
      handle_event cw1 (Except.ok (Event.key (KeyCode.char ':')))
          (register_key ':' command_key_handler cbDefault []).1
          (register_key ':' command_key_handler cbDefault []).2 =
        (command_key_handler (register_key ':' command_key_handler cbDefault []).1 ':',
          if (command_key_handler
                (register_key ':' command_key_handler cbDefault []).1 ':').command_key
              = some ':'
          then EventHandlerResult.Ok
          else EventHandlerResult.Unhandled (Event.key (KeyCode.char ':'))) :=
  ⟨⟨rfl, rfl⟩,
   c4_registered_callback_invoked cw1 (register_key ':' command_key_handler cbDefault []).1
     (register_key ':' command_key_handler cbDefault []).2 ':' command_key_handler rfl rfl⟩

/-- Counterexample to C4 as stated: register `a` and then `:` (so the
command key is `:` while `a` stays registered) and dispatch `a` in
Normal mode.  The callback for `a` is invoked, but the outcome is
`Unhandled`, not Handled. -/
theorem c4_counterexample :
    lookupKey (register_key ':' noop (register_key 'a' noop cbDefault []).1
        (register_key 'a' noop cbDefault []).2).2 'a' = some noop ∧
      (register_key ':' noop (register_key 'a' noop cbDefault []).1
        (register_key 'a' noop cbDefault []).2).1.command_key = some ':' ∧
      (handle_event cw1 (Except.ok (Event.key (KeyCode.char 'a')))
          (register_key ':' noop (register_key 'a' noop cbDefault []).1
            (register_key 'a' noop cbDefault []).2).1
          (register_key ':' noop (register_key 'a' noop cbDefault []).1
            (register_key 'a' noop cbDefault []).2).2).2
        = EventHandlerResult.Unhandled (Event.key (KeyCode.char 'a')) ∧
      (handle_event cw1 (Except.ok (Event.key (KeyCode.char 'a')))
          (register_key ':' noop (register_key 'a' noop cbDefault []).1
            (register_key 'a' noop cbDefault []).2).1
          (register_key ':' noop (register_key 'a' noop cbDefault []).1
            (register_key 'a' noop cbDefault []).2).2).2
        ≠ EventHandlerResult.Ok :=
  ⟨rfl, rfl, rfl, by decide⟩

/-- C9: the popup's dispatch returns exactly the wrapped command bar's
outcome and updated bar state; after an `Ok` outcome the visibility flag
equals whether the bar is in Editing mode, and after any other outcome
it keeps its previous value. -/
theorem c9_popup_visibility (cw : Char → Nat) (res : Except String Event)
    (p : PopupState) (db : KeyDB) :
    (popupHandleEvent cw res p db).2 = (handle_event cw res p.bar db).2 ∧
      (popupHandleEvent cw res p db).1.bar = (handle_event cw res p.bar db).1 ∧
      (popupHandleEvent cw res p db).1.show_popup =
        (if (handle_event cw res p.bar db).2 = EventHandlerResult.Ok
         then decide ((handle_event cw res p.bar db).1.input_mode = InputMode.Editing)
         else p.show_popup) := by
  cases hr : (handle_event cw res p.bar db).2 with
  | Ok =>
      cases hm : (handle_event cw res p.bar db).1.input_mode <;>
        simp [popupHandleEvent, hr, hm]
  | Err => simp [popupHandleEvent, hr]
  | Unhandled e => simp [popupHandleEvent, hr]

/-- C8 (amended): `register_key` inserts or replaces the binding for the
key, and additionally sets the owner's `command_key` to that key; every
other widget field is unchanged. -/
theorem c8_register_sets_command_key (s : CBState) (db : KeyDB) (k k' : Char)
    (f : Callback) :
    (register_key k f s db).1 = { s with command_key := some k } ∧
      lookupKey (register_key k f s db).2 k' =
        (if k' = k then some f else lookupKey db k') :=
  ⟨rfl, lookupKey_insert db k k' f⟩

/-- Counterexample to C8 as stated: registering a key on a default
command bar changes `command_key` from `none` to the registered key,
so registration is not free of side effects outside the map. -/
theorem c8_register_counterexample :
    (register_key 'a' noop cbDefault []).1.command_key = some 'a' ∧
      cbDefault.command_key = none ∧
      (register_key 'a' noop cbDefault []).1.command_key ≠ cbDefault.command_key :=
  ⟨rfl, rfl, by decide⟩

/-- Buffer width is additive on a leading character. -/
lemma strWidth_cons (cw : Char → Nat) (c : Char) (l : List Char) :
    strWidth cw (c :: l) = cw c + strWidth cw l := by
  simp [strWidth]

/-- Buffer width is additive on concatenation. -/
lemma strWidth_concat (cw : Char → Nat) (l1 l2 : List Char) :
    strWidth cw (l1 ++ l2) = strWidth cw l1 + strWidth cw l2 := by
  simp [strWidth]

/-- Dispatching a sequence of characters in Editing mode appends exactly
the accepted characters, stays in Editing mode, and keeps the width
limit. -/
lemma processChars_editing (cw : Char → Nat) (db : KeyDB) :
    ∀ (chars : List Char) (s : CBState), s.input_mode = InputMode.Editing →
      (processChars cw db s chars).input
          = s.input ++ acceptedChars cw s.width (strWidth cw s.input) chars ∧
        (processChars cw db s chars).input_mode = InputMode.Editing ∧
        (processChars cw db s chars).width = s.width := by
  intro chars
  induction chars with
  | nil =>
      intro s h
      exact ⟨by simp [processChars, acceptedChars], h, rfl⟩
  | cons c cs ih =>
      intro s h
      rw [processChars, handle_event_editing_char cw s db c h]
      by_cases hw : strWidth cw s.input < s.width
      · rw [if_pos hw]
        have hs' : ({ s with input := s.input ++ [c] } : CBState).input_mode
            = InputMode.Editing := h
        obtain ⟨hi, hm, hwd⟩ := ih { s with input := s.input ++ [c] } hs'
        refine ⟨?_, hm, hwd⟩
        rw [hi]
        show s.input ++ [c] ++ acceptedChars cw s.width (strWidth cw (s.input ++ [c])) cs
          = s.input ++ acceptedChars cw s.width (strWidth cw s.input) (c :: cs)
        rw [acceptedChars, if_pos hw, strWidth_append, List.append_assoc]
        rfl
      · rw [if_neg hw]
        obtain ⟨hi, hm, hwd⟩ := ih s h
        refine ⟨?_, hm, hwd⟩
        rw [hi, acceptedChars, if_neg hw]

/-- Quantitative bound on the accepted characters: starting from running
width `cur`, the final width never exceeds the larger of `cur` and
`w - 1 + m`, where `m` bounds the per-character widths. -/
lemma acceptedChars_width (cw : Char → Nat) (w m : Nat) :
    ∀ (chars : List Char) (cur : Nat), (∀ c ∈ chars, cw c ≤ m) →
      cur + strWidth cw (acceptedChars cw w cur chars) ≤ max cur (w - 1 + m) := by
  intro chars
  induction chars with
  | nil =>
      intro cur _
      simp [acceptedChars, strWidth]
  | cons c cs ih =>
      intro cur hm
      have hmc : cw c ≤ m := hm c (by simp)
      have hms : ∀ x ∈ cs, cw x ≤ m := fun x hx => hm x (by simp [hx])
      by_cases hcur : cur < w
      · rw [acceptedChars, if_pos hcur, strWidth_cons]
        have hrec := ih (cur + cw c) hms
        have h1 : cur + cw c ≤ w - 1 + m := by omega
        have h2 : max (cur + cw c) (w - 1 + m) = w - 1 + m := Nat.max_eq_right h1
        rw [h2] at hrec
        have h3 : w - 1 + m ≤ max cur (w - 1 + m) := Nat.le_max_right _ _
        omega
      · rw [acceptedChars, if_neg hcur]
        exact ih cur hms

/-- C2 (amended): for every sequence of printable-character events in
Editing mode, the buffer becomes the original buffer followed by exactly
the accepted characters, where a character is accepted if and only if
the buffer's display width **before** the append is strictly less than
`max_width`; accordingly the final display width is bounded by
`max_width - 1` plus the largest character width (not by `max_width`
itself). -/
theorem c2_editing_buffer_concat (cw : Char → Nat) (db : KeyDB) (s : CBState)
    (chars : List Char) (m : Nat) (h : s.input_mode = InputMode.Editing)
    (hm : ∀ c ∈ chars, cw c ≤ m) :
    (processChars cw db s chars).input
        = s.input ++ acceptedChars cw s.width (strWidth cw s.input) chars ∧
      (processChars cw db s chars).input_mode = InputMode.Editing ∧
      strWidth cw (processChars cw db s chars).input
        ≤ max (strWidth cw s.input) (s.width - 1 + m) := by
  obtain ⟨hi, hmq, hwd⟩ := processChars_editing cw db chars s h
  refine ⟨hi, hmq, ?_⟩
  rw [hi, strWidth_concat]
  exact acceptedChars_width cw s.width m chars (strWidth cw s.input) hm

/-- Witness for C2 (amended): four `a b c d` keystrokes on an empty
Editing-mode bar of width 2 keep exactly the first two characters. -/
theorem c2_witness :
    (({ cbDefault with input_mode := InputMode.Editing, width := 2 } : CBState).input_mode
        = InputMode.Editing ∧
      (∀ c ∈ (['a', 'b', 'c', 'd'] : List Char), cw1 c ≤ 1)) ∧
      ((processChars cw1 []
          { cbDefault with input_mode := InputMode.Editing, width := 2 }
          ['a', 'b', 'c', 'd']).input
        = ({ cbDefault with input_mode := InputMode.Editing, width := 2 } : CBState).input
            ++ acceptedChars cw1
                ({ cbDefault with input_mode := InputMode.Editing, width := 2 } : CBState).width
                (strWidth cw1
                  ({ cbDefault with input_mode := InputMode.Editing, width := 2 } : CBState).input)
                ['a', 'b', 'c', 'd'] ∧
      (processChars cw1 []
          { cbDefault with input_mode := InputMode.Editing, width := 2 }
          ['a', 'b', 'c', 'd']).input_mode = InputMode.Editing ∧
      strWidth cw1 (processChars cw1 []
          { cbDefault with input_mode := InputMode.Editing, width := 2 }
          ['a', 'b', 'c', 'd']).input
        ≤ max (strWidth cw1
              ({ cbDefault with input_mode := InputMode.Editing, width := 2 } : CBState).input)
            (({ cbDefault with input_mode := InputMode.Editing, width := 2 } : CBState).width
              - 1 + 1)) :=
  ⟨⟨rfl, by decide⟩,
   c2_editing_buffer_concat cw1 []
     { cbDefault with input_mode := InputMode.Editing, width := 2 }
     ['a', 'b', 'c', 'd'] 1 rfl (by decide)⟩

/-- Counterexample to C2 as stated: on an Editing-mode bar of width 1, a
double-width character is accepted (the pre-append width 0 is below the
limit), even though appending it takes the display width to 2; the
resulting buffer violates the claimed `width ≤ max_width` invariant, and
the claimed acceptance condition would have rejected the character. -/
theorem c2_counterexample :
    cwWide '好' = 2 ∧
      ({ cbDefault with input_mode := InputMode.Editing, width := 1 } : CBState).width = 1 ∧
      (handle_event cwWide (Except.ok (Event.key (KeyCode.char '好')))
          { cbDefault with input_mode := InputMode.Editing, width := 1 } []).1.input
        = ['好'] ∧
      ¬ (strWidth cwWide
            (handle_event cwWide (Except.ok (Event.key (KeyCode.char '好')))
              { cbDefault with input_mode := InputMode.Editing, width := 1 } []).1.input
          ≤ ({ cbDefault with input_mode := InputMode.Editing, width := 1 } : CBState).width) :=
  ⟨rfl, rfl, rfl, by decide⟩

end CBar
